import Mathlib

/-!
Verification of the transform-application engine of the albumentations core
(`albumentations/core/transforms_interface.py`, `numpy_core.py`, `lists_core.py`)
against its natural-language specification.

The Python code is shallowly embedded:

* Python values that flow through the engine (`None`, numbers, plain numpy
  arrays, `TransformsArray`, plain lists, `TransformsList`) become the
  inductive type `PyVal`.
* A keyword-argument bundle (`**kwargs`) becomes an insertion-ordered
  association list `Bundle`; a parameter dict becomes `Params`.
* Python exceptions become the error type `PyErr` via `Except`
  (`KeyError "image"` is the spec's `MissingRequiredArtifact`,
  `ValueError` is the spec's `InvalidArgument`,
  `AttributeError` raised out of `keep_memory` is the spec's
  `UnsupportedProvenanceTarget`).
* A transform instance becomes the structure `TransformCfg`: its
  configuration (`p`, `always_apply`, the alias table `_additional_targets`,
  the optional `interpolation` / `fill_value` attributes probed by
  `update_params` through `hasattr`) plus its leaf operations (`apply`,
  `apply_to_bbox`, `apply_to_keypoint`) as plain functions.  In the source
  the leaves of `BasicTransform` raise `NotImplementedError`; every claim
  below is either about the engine with the leaves universally quantified,
  or about the concrete `NoOp` transform whose leaves are identities.
* `BasicTransform.__call__`'s single `random.random()` draw becomes an
  explicit rational argument `draw` with `0 ≤ draw` where it matters.
* In the source `targets_as_params` is `[]` and `target_dependence` is `{}`
  for every class defined in the repository (`BasicTransform`,
  `DualTransform`, `ImageOnlyTransform`, `NoOp`), so the
  `targets_as_params` branch of `__call__` is skipped and the dependency
  dict merged into the parameters is always empty; the embedding of
  `__call__` reflects exactly that code path.
-/

namespace Alb

/-- A provenance entry, `{'transform': self, 'params': params}` as appended by
`BasicTransform.keep_memory`.  The transform object is represented by its
identity (`name`); parameter values in this development are integers. -/
structure Entry where
  tname : String
  params : List (String × Int)
deriving DecidableEq, Repr

/-- Parameter dict (`params` in the Python source): an insertion-ordered
association list from parameter name to (integer) value. -/
abbrev Params := List (String × Int)

/-- The Python values the engine routes: `None`, numbers, a plain
`np.ndarray` (shape and flattened data), a `TransformsArray` (same plus the
`transforms` history list), a plain Python `list`, and a `TransformsList`
(list plus history).  This is the closed set of artifact kinds the spec's
provenance tracker recognises. -/
inductive PyVal where
  | pnone
  | pint (n : Int)
  | arr (rows cols : Nat) (data : List Int)
  | tarr (rows cols : Nat) (data : List Int) (transforms : List Entry)
  | plist (xs : List PyVal)
  | tlist (xs : List PyVal) (transforms : List Entry)

/-- The invocation bundle (`**kwargs`): an insertion-ordered association
list from artifact key to artifact value. -/
abbrev Bundle := List (String × PyVal)

/-- Python exceptions raised by the embedded code. -/
inductive PyErr where
  | keyError (k : String)
  | valueError (msg : String)
  | attributeError
  | typeError
deriving DecidableEq, Repr

/-- First-match lookup in a parameter dict (reading `params[k]`). -/
def dictGet (ps : Params) (k : String) : Option Int :=
  (ps.find? (fun kv => kv.1 == k)).map (fun kv => kv.2)

/-- Python-dict assignment `ps[k] = v`: overwrite in place when the key is
present (keeping insertion order), append otherwise. -/
def dictSet (ps : Params) (k : String) (v : Int) : Params :=
  if ps.any (fun kv => kv.1 == k) then
    ps.map (fun kv => if kv.1 == k then (k, v) else kv)
  else
    ps ++ [(k, v)]

/-- First-match lookup of an artifact key in a bundle (`kwargs[k]`). -/
def lookupBundle (b : Bundle) (k : String) : Option PyVal :=
  (b.find? (fun kv => kv.1 == k)).map (fun kv => kv.2)

/-! ## `to_tuple` (transforms_interface.py lines 16-44) -/

/-- The `param` argument of `to_tuple`: `None`, a scalar, or a
list/tuple of numbers. -/
inductive ToTupleParam where
  | noneP
  | scalar (x : Int)
  | seq (xs : List Int)
deriving DecidableEq, Repr

/-- `to_tuple(param, low=None, bias=None)`, line for line:
the mutual-exclusion check first, then the `param is None` early return,
then the scalar / sequence branches, then the bias offset.  The returned
pair is modelled as a two-element list. -/
def to_tuple (param : ToTupleParam) (low : Option Int) (bias : Option Int) :
    Except PyErr (Option (List Int)) :=
  if low.isSome ∧ bias.isSome then
    .error (.valueError "Arguments low and bias are mutually exclusive")
  else
    match param with
    | .noneP => .ok none
    | .scalar x =>
      let p : List Int :=
        match low with
        | none => [-x, x]
        | some l => if l < x then [l, x] else [x, l]
      match bias with
      | some b => .ok (some (p.map (fun y => b + y)))
      | none => .ok (some p)
    | .seq xs =>
      match bias with
      | some b => .ok (some (xs.map (fun y => b + y)))
      | none => .ok (some xs)

/-! ## Transform instances -/

/-- A transform instance.  Configuration fields mirror the attributes read
by the engine (`p`, `always_apply`, `_additional_targets`, and the optional
`interpolation` / `fill_value` attributes that `update_params` probes with
`hasattr`); `name` stands for the transform object's identity as stored in
a provenance entry; `get_params` is the transform-declared parameter dict
(`BasicTransform.get_params` returns `{}`); the remaining fields are the
leaf operations a concrete transform overrides (`apply`, `apply_to_bbox`,
`apply_to_keypoint`), taken as plain functions. -/
structure TransformCfg where
  name : String
  p : ℚ
  always_apply : Bool
  additional_targets : List (String × String)
  interpolation : Option Int
  fill_value : Option Int
  get_params : Params
  applyF : PyVal → Params → PyVal
  apply_to_bboxF : List Int → Params → List Int
  apply_to_keypointF : List Int → Params → List Int

/-- The two structural variants of the contract: `DualTransform` and
`ImageOnlyTransform`. -/
inductive TKind where
  | dual
  | imageOnly
deriving DecidableEq, Repr

/-- The provenance entry `{'transform': self, 'params': params}`. -/
def mkEntry (t : TransformCfg) (ps : Params) : Entry :=
  ⟨t.name, ps⟩

/-- The `transforms` history attached to an artifact, when the artifact
carries one (`TransformsArray` / `TransformsList`). -/
def historyOf : PyVal → Option (List Entry)
  | .tarr _ _ _ ts => some ts
  | .tlist _ ts => some ts
  | _ => none

/-- Replace the history on a history-carrying artifact (used only to state
theorems; plain values are returned unchanged). -/
def setHistory : PyVal → List Entry → PyVal
  | .tarr r c d _, ts => .tarr r c d ts
  | .tlist xs _, ts => .tlist xs ts
  | v, _ => v

/-! ## Provenance tracker: `BasicTransform.keep_memory` (lines 86-100)

`keep_memory(quant, **params)` tries `quant.transforms`; on
`AttributeError` it tries `quant.transforms = []`; if that also fails it
rebinds its **local** variable `quant` to `TransformsArray(quant)` /
`TransformsList(quant)` (or re-raises for any other kind) and appends the
entry to whatever object the local now names.  The function returns `None`,
so in the wrap branches the freshly built wrapper — the object that
received the append — is dropped on return and the caller's object is left
untouched.  `keep_memory_full` returns the pair
(caller-visible value of the argument object after the call,
 final value of the local `quant` inside `keep_memory`). -/

def keep_memory_full (t : TransformCfg) (ps : Params) :
    PyVal → Except PyErr (PyVal × PyVal)
  | .tarr r c d ts =>
    .ok (.tarr r c d (ts ++ [mkEntry t ps]), .tarr r c d (ts ++ [mkEntry t ps]))
  | .tlist xs ts =>
    .ok (.tlist xs (ts ++ [mkEntry t ps]), .tlist xs (ts ++ [mkEntry t ps]))
  | .arr r c d => .ok (.arr r c d, .tarr r c d [mkEntry t ps])
  | .plist xs => .ok (.plist xs, .tlist xs [mkEntry t ps])
  | .pnone => .error .attributeError
  | .pint _ => .error .attributeError

/-- The caller-visible effect of `keep_memory` on the artifact. -/
def keep_memory (t : TransformCfg) (ps : Params) (q : PyVal) :
    Except PyErr PyVal :=
  (keep_memory_full t ps q).map (fun r => r.1)

/-! ## `DualTransform` composition rules (lines 211-223) -/

/-- `cv2.INTER_NEAREST`. -/
def INTER_NEAREST : Int := 0

/-- The dict comprehension in `apply_to_mask`:
`{k: cv2.INTER_NEAREST if k == 'interpolation' else v for k, v in params.items()}`. -/
def maskParams (ps : Params) : Params :=
  ps.map (fun kv => if kv.1 == "interpolation" then (kv.1, INTER_NEAREST) else kv)

/-- `DualTransform.apply_to_mask`: the raster `apply` with interpolation
forced to nearest-neighbour. -/
def apply_to_mask_impl (f : PyVal → Params → PyVal) (m : PyVal) (ps : Params) : PyVal :=
  f m (maskParams ps)

/-- `DualTransform.apply_to_masks`: the single-mask rule mapped over the
list. -/
def apply_to_masks_impl (f : PyVal → Params → PyVal) (ms : List PyVal) (ps : Params) :
    List PyVal :=
  ms.map (fun m => apply_to_mask_impl f m ps)

/-- `DualTransform.apply_to_bboxes`:
`[self.apply_to_bbox(bbox[:4], **params) + bbox[4:] for bbox in bboxes]`
(after `bboxes = [list(bbox) for bbox in bboxes]`, the identity on this
list-of-number-lists model). -/
def apply_to_bboxes_impl (f : List Int → Params → List Int) (ps : Params)
    (bboxes : List (List Int)) : List (List Int) :=
  bboxes.map (fun bbox => f (bbox.take 4) ps ++ bbox.drop 4)

/-- `DualTransform.apply_to_keypoints`: the same composition rule with the
keypoint primitive. -/
def apply_to_keypoints_impl (f : List Int → Params → List Int) (ps : Params)
    (keypoints : List (List Int)) : List (List Int) :=
  keypoints.map (fun keypoint => f (keypoint.take 4) ps ++ keypoint.drop 4)

/-! ## Engine-level target functions -/

/-- A Python `int`. -/
def asInt : PyVal → Option Int
  | .pint n => some n
  | _ => none

/-- Iterating a Python list-like (`list` or `TransformsList`). -/
def asPyList : PyVal → Option (List PyVal)
  | .plist xs => some xs
  | .tlist xs _ => some xs
  | _ => none

/-- `list(bbox)` over a sequence of numbers. -/
def asNumList (v : PyVal) : Option (List Int) :=
  match v with
  | .plist xs => xs.mapM asInt
  | .tlist xs _ => xs.mapM asInt
  | _ => none

/-- A number list back to a Python list value. -/
def numsToPyList (b : List Int) : PyVal :=
  .plist (b.map (fun n => .pint n))

/-- `BasicTransform._apply` (line 105): `keep_memory(quant)` then
`apply(quant)` — `apply` sees the caller-visible (in-place mutated)
object. -/
def dt_apply (t : TransformCfg) (q : PyVal) (ps : Params) : Except PyErr PyVal :=
  match keep_memory t ps q with
  | .error e => .error e
  | .ok q2 => .ok (t.applyF q2 ps)

/-- `DualTransform._apply_to_mask` (line 201): `keep_memory(mask, **params)`
then `apply_to_mask(mask, **params)`. -/
def dt_apply_to_mask (t : TransformCfg) (q : PyVal) (ps : Params) : Except PyErr PyVal :=
  match keep_memory t ps q with
  | .error e => .error e
  | .ok q2 => .ok (apply_to_mask_impl t.applyF q2 ps)

/-- `DualTransform.apply_to_masks` as bound in `targets` (line 189): note
there is no `keep_memory` wrapper on this target, and the comprehension
builds a fresh plain list. -/
def dt_apply_to_masks (t : TransformCfg) (q : PyVal) (ps : Params) : Except PyErr PyVal :=
  match asPyList q with
  | none => .error .typeError
  | some ms => .ok (.plist (apply_to_masks_impl t.applyF ms ps))

/-- `DualTransform._apply_to_bboxes` (line 193): `keep_memory` then
`apply_to_bboxes`, which rebuilds the boxes as fresh plain lists. -/
def dt_apply_to_bboxes (t : TransformCfg) (q : PyVal) (ps : Params) : Except PyErr PyVal :=
  match keep_memory t ps q with
  | .error e => .error e
  | .ok q2 =>
    match asPyList q2 with
    | none => .error .typeError
    | some bs =>
      match bs.mapM asNumList with
      | none => .error .typeError
      | some boxes =>
        .ok (.plist ((apply_to_bboxes_impl t.apply_to_bboxF ps boxes).map numsToPyList))

/-- `DualTransform._apply_to_keypoints` (line 197). -/
def dt_apply_to_keypoints (t : TransformCfg) (q : PyVal) (ps : Params) : Except PyErr PyVal :=
  match keep_memory t ps q with
  | .error e => .error e
  | .ok q2 =>
    match asPyList q2 with
    | none => .error .typeError
    | some ks =>
      match ks.mapM asNumList with
      | none => .error .typeError
      | some kps =>
        .ok (.plist ((apply_to_keypoints_impl t.apply_to_keypointF ps kps).map numsToPyList))

/-- The `targets` dict of each structural variant:
`DualTransform.targets` (lines 185-191) binds `image`/`mask`/`bboxes`/
`keypoints` to the provenance-wrapped variants but `masks` to the bare
`apply_to_masks`; `ImageOnlyTransform.targets` (lines 229-231) binds only
`image`, to the bare `apply`. -/
def targets (t : TransformCfg) (kind : TKind) (k : String) :
    Option (PyVal → Params → Except PyErr PyVal) :=
  match kind with
  | .dual =>
    if k == "image" then some (dt_apply t)
    else if k == "mask" then some (dt_apply_to_mask t)
    else if k == "masks" then some (dt_apply_to_masks t)
    else if k == "bboxes" then some (dt_apply_to_bboxes t)
    else if k == "keypoints" then some (dt_apply_to_keypoints t)
    else none
  | .imageOnly =>
    if k == "image" then some (fun q ps => .ok (t.applyF q ps)) else none

/-- Alias resolution inside `_get_target_function` (lines 78-82): if the
key is in `_additional_targets`, route by the canonical name instead. -/
def resolveKey (t : TransformCfg) (k : String) : String :=
  match t.additional_targets.find? (fun kv => kv.1 == k) with
  | some kv => kv.2
  | none => k

/-- `BasicTransform._get_target_function` (lines 78-84):
`targets.get(transform_key, lambda x, **p: x)` — unregistered canonical
names fall back to the identity. -/
def get_target_function (t : TransformCfg) (kind : TKind) (k : String) :
    PyVal → Params → Except PyErr PyVal :=
  match targets t kind (resolveKey t k) with
  | some f => f
  | none => fun x _ => .ok x

/-- `BasicTransform.add_targets` (line 142):
`self._additional_targets = additional_targets` — plain assignment. -/
def add_targets (t : TransformCfg) (m : List (String × String)) : TransformCfg :=
  { t with additional_targets := m }

/-! ## Parameter resolver and `__call__` -/

/-- `.shape` of a raster artifact. -/
def shapeOf : PyVal → Option (Nat × Nat)
  | .arr r c _ => some (r, c)
  | .tarr r c _ _ => some (r, c)
  | _ => none

/-- `BasicTransform.update_params` (lines 119-127): inject `interpolation`
and `fill_value` when the transform has them, then
`params.update({'cols': kwargs['image'].shape[1], 'rows': kwargs['image'].shape[0]})`.
A bundle with no `image` key raises `KeyError` — the spec's
`MissingRequiredArtifact`. -/
def update_params (t : TransformCfg) (ps0 : Params) (bundle : Bundle) :
    Except PyErr Params :=
  let ps1 := match t.interpolation with
    | some i => dictSet ps0 "interpolation" i
    | none => ps0
  let ps2 := match t.fill_value with
    | some fv => dictSet ps1 "fill_value" fv
    | none => ps1
  match lookupBundle bundle "image" with
  | none => .error (.keyError "image")
  | some img =>
    match shapeOf img with
    | none => .error .attributeError
    | some rc => .ok (dictSet (dictSet ps2 "cols" (Int.ofNat rc.2)) "rows" (Int.ofNat rc.1))

/-- The shared parameter set of one active invocation:
`params = self.get_params(); params = self.update_params(params, **kwargs)`. -/
def callParams (t : TransformCfg) (bundle : Bundle) : Except PyErr Params :=
  update_params t t.get_params bundle

/-- One iteration of the dispatch loop in `__call__` (lines 63-69):
`None`-valued entries pass through as `None`, everything else goes through
the routed target function (with the empty `target_dependence` dict of the
source classes merged in, i.e. the shared params unchanged). -/
def applyStep (t : TransformCfg) (kind : TKind) (ps : Params) (k : String)
    (v : PyVal) : Except PyErr PyVal :=
  match v with
  | .pnone => .ok .pnone
  | arg => get_target_function t kind k arg ps

/-- The dispatch loop over the bundle, in insertion order, with the first
raised exception propagating. -/
def callLoop (t : TransformCfg) (kind : TKind) (ps : Params) :
    Bundle → Except PyErr Bundle
  | [] => .ok []
  | (k, v) :: rest =>
    match applyStep t kind ps k v with
    | .error e => .error e
    | .ok r =>
      match callLoop t kind ps rest with
      | .error e => .error e
      | .ok os => .ok ((k, r) :: os)

/-- `BasicTransform.__call__` (lines 54-71).  The single `random.random()`
draw is the explicit argument `draw`; activation is
`(random.random() < self.p) or self.always_apply or force_apply`.  The
`targets_as_params` branch is skipped because `targets_as_params` is `[]`
in every class of this repository. -/
def call (t : TransformCfg) (kind : TKind) (force_apply : Bool) (draw : ℚ)
    (bundle : Bundle) : Except PyErr Bundle :=
  if draw < t.p ∨ t.always_apply = true ∨ force_apply = true then
    match callParams t bundle with
    | .error e => .error e
    | .ok ps => callLoop t kind ps bundle
  else .ok bundle

/-- Repeated invocation of the same transform with one draw per call, the
output bundle of each call feeding the next. -/
def callRepeat (t : TransformCfg) (kind : TKind) (force_apply : Bool) :
    List ℚ → Bundle → Except PyErr Bundle
  | [], bundle => .ok bundle
  | d :: ds, bundle =>
    match call t kind force_apply d bundle with
    | .error e => .error e
    | .ok b => callRepeat t kind force_apply ds b

/-- The rational 1/2 in normal form (kept kernel-reducible). -/
def oneHalf : ℚ := ⟨1, 2, by decide, by decide⟩

/-- The concrete `NoOp` transform (lines 234-247): a `DualTransform` whose
every leaf is the identity, with the default configuration
`always_apply=False, p=0.5`. -/
def NoOpT : TransformCfg where
  name := "NoOp"
  p := oneHalf
  always_apply := false
  additional_targets := []
  interpolation := none
  fill_value := none
  get_params := []
  applyF := fun q _ => q
  apply_to_bboxF := fun b _ => b
  apply_to_keypointF := fun k _ => k

/-- C9: `to_tuple(5)` is `(-5, 5)`; `to_tuple(5, low=2)` is `(2, 5)`;
`to_tuple((1,2))` is `(1, 2)`; `to_tuple(5, bias=1)` is `(-4, 6)`; and for
every `param`, supplying both `low` and `bias` fails with the
`InvalidArgument` condition (Python `ValueError`). -/
theorem C9_to_tuple_examples :
    to_tuple (.scalar 5) none none = .ok (some [-5, 5])
    ∧ to_tuple (.scalar 5) (some 2) none = .ok (some [2, 5])
    ∧ to_tuple (.seq [1, 2]) none none = .ok (some [1, 2])
    ∧ to_tuple (.scalar 5) none (some 1) = .ok (some [-4, 6])
    ∧ ∀ (param : ToTupleParam) (l b : Int),
        to_tuple param (some l) (some b) =
          .error (.valueError "Arguments low and bias are mutually exclusive") := by
  refine ⟨rfl, rfl, rfl, rfl, ?_⟩
  intro param l b
  simp [to_tuple]

/-! ## Helper lemmas about the dispatch loop -/

theorem lookupBundle_cons (k1 : String) (v1 : PyVal) (rest : Bundle) (k : String) :
    lookupBundle ((k1, v1) :: rest) k
      = if k1 == k then some v1 else lookupBundle rest k := by
  by_cases h : k1 == k
  · simp [lookupBundle, List.find?, h]
  · simp only [lookupBundle, List.find?]
    rw [Bool.eq_false_iff.mpr h]
    simp [h]

theorem applyStep_ne_pnone {t : TransformCfg} {kind : TKind} {ps : Params}
    {k : String} {v : PyVal} (hv : v ≠ .pnone) :
    applyStep t kind ps k v = get_target_function t kind k v ps := by
  cases v
  · exact absurd rfl hv
  all_goals rfl

theorem applyStep_unregistered {t : TransformCfg} {kind : TKind} {ps : Params}
    {k : String} {v : PyVal} (hk : targets t kind (resolveKey t k) = none) :
    applyStep t kind ps k v = .ok v := by
  cases v <;> simp [applyStep, get_target_function, hk]

/-- If the dispatch loop succeeds, each present key of the input bundle is
present in the output, bound to the value its target function produced. -/
theorem callLoop_lookup {t : TransformCfg} {kind : TKind} {ps : Params} :
    ∀ {bundle out : Bundle} {k : String} {v : PyVal},
      callLoop t kind ps bundle = .ok out →
      lookupBundle bundle k = some v →
      ∃ w, applyStep t kind ps k v = .ok w ∧ lookupBundle out k = some w := by
  intro bundle
  induction bundle with
  | nil =>
    intro out k v hloop hv
    simp [lookupBundle] at hv
  | cons kv rest ih =>
    intro out k v hloop hv
    obtain ⟨k1, v1⟩ := kv
    rw [lookupBundle_cons] at hv
    simp only [callLoop] at hloop
    cases hstep : applyStep t kind ps k1 v1 with
    | error e => rw [hstep] at hloop; exact absurd hloop (by simp)
    | ok r =>
      rw [hstep] at hloop
      cases hrest : callLoop t kind ps rest with
      | error e => rw [hrest] at hloop; exact absurd hloop (by simp)
      | ok os =>
        rw [hrest] at hloop
        have hout : out = (k1, r) :: os := by
          simpa using hloop.symm
        subst hout
        by_cases hkk : k1 == k
        · rw [if_pos hkk] at hv
          have hveq : v = v1 := by simpa using hv.symm
          subst hveq
          have hk1 : k1 = k := by simpa using hkk
          subst hk1
          exact ⟨r, hstep, by rw [lookupBundle_cons, if_pos]; simp⟩
        · rw [if_neg hkk] at hv
          obtain ⟨w, hw1, hw2⟩ := ih hrest hv
          exact ⟨w, hw1, by rw [lookupBundle_cons, if_neg hkk]; exact hw2⟩

/-- An active call that returns a bundle ran the dispatch loop on the
parameters produced by the parameter resolver. -/
theorem call_active_loop {t : TransformCfg} {kind : TKind} {force : Bool}
    {draw : ℚ} {bundle out : Bundle} {ps : Params}
    (hact : draw < t.p ∨ t.always_apply = true ∨ force = true)
    (hps : callParams t bundle = .ok ps)
    (hcall : call t kind force draw bundle = .ok out) :
    callLoop t kind ps bundle = .ok out := by
  unfold call at hcall
  rw [if_pos hact, hps] at hcall
  exact hcall

/-- An inactive call is the identity on the bundle. -/
theorem call_inactive {t : TransformCfg} {kind : TKind} {draw : ℚ}
    {bundle : Bundle} (hp : t.p = 0) (ha : t.always_apply = false)
    (hd : 0 ≤ draw) :
    call t kind false draw bundle = .ok bundle := by
  unfold call
  rw [if_neg]
  rintro (h | h | h)
  · rw [hp] at h; exact absurd h (not_lt.mpr hd)
  · rw [ha] at h; cases h
  · cases h

/-- `keep_memory` on an artifact that already carries a history appends the
`{transform, params}` entry in place. -/
theorem keep_memory_hist {t : TransformCfg} {ps : Params} {v : PyVal}
    {h : List Entry} (hh : historyOf v = some h) :
    keep_memory t ps v = .ok (setHistory v (h ++ [mkEntry t ps])) := by
  cases v <;> simp [historyOf] at hh <;> rw [← hh] <;> rfl

theorem historyOf_setHistory {v : PyVal} {h : List Entry} (ts : List Entry)
    (hh : historyOf v = some h) :
    historyOf (setHistory v ts) = some ts := by
  cases v <;> simp [historyOf] at hh ⊢ <;> rfl

/-! ## Claim theorems -/

/-- C3: for every transform with `p = 0` and `always_apply = false`, every
invocation with `force_apply = false` (whatever the uniform draw in
`[0, 1)`) returns the input bundle unchanged — same keys, identical
values, no provenance appended anywhere — and the same holds for any
number of repeated calls. -/
theorem C3_p_zero_identity (t : TransformCfg) (kind : TKind) (bundle : Bundle)
    (d : ℚ) (draws : List ℚ)
    (hp : t.p = 0) (ha : t.always_apply = false)
    (hd : 0 ≤ d) (hds : ∀ x ∈ draws, 0 ≤ x) :
    call t kind false d bundle = .ok bundle
    ∧ callRepeat t kind false draws bundle = .ok bundle := by
  refine ⟨call_inactive hp ha hd, ?_⟩
  induction draws with
  | nil => rfl
  | cons d2 ds ih =>
    have h2 : call t kind false d2 bundle = .ok bundle :=
      call_inactive hp ha (hds d2 (by simp))
    simp only [callRepeat, h2]
    exact ih (fun x hx => hds x (by simp [hx]))

/-- Witness for C3 at a concrete `p = 0` transform, bundle and draws. -/
theorem C3_p_zero_identity_witness :
    call { NoOpT with p := 0 } .dual false 0 [("image", .arr 1 1 [7])]
      = .ok [("image", .arr 1 1 [7])]
    ∧ callRepeat { NoOpT with p := 0 } .dual false [0, oneHalf]
        [("image", .arr 1 1 [7])]
      = .ok [("image", .arr 1 1 [7])] :=
  C3_p_zero_identity { NoOpT with p := 0 } .dual [("image", .arr 1 1 [7])]
    0 [0, oneHalf] rfl rfl (le_refl 0)
    (by
      intro x hx
      simp only [List.mem_cons, List.mem_singleton, List.not_mem_nil, or_false] at hx
      rcases hx with h | h
      · rw [h]
      · rw [h]; exact le_of_lt (by decide))

/-- C6: an active invocation on a bundle with no `image` key — for example
one containing only a bounding-box artifact — fails with the
`MissingRequiredArtifact` condition (Python `KeyError` on `'image'` inside
`update_params`), producing no transformed bundle at all. -/
theorem C6_missing_image (t : TransformCfg) (kind : TKind) (force : Bool)
    (draw : ℚ) (bundle : Bundle)
    (hact : draw < t.p ∨ t.always_apply = true ∨ force = true)
    (himg : lookupBundle bundle "image" = none) :
    call t kind force draw bundle = .error (.keyError "image") := by
  unfold call
  rw [if_pos hact]
  simp [callParams, update_params, himg]

/-- Witness for C6: `NoOp` force-applied to a bundle holding only a
bounding-box list. -/
theorem C6_missing_image_witness :
    call NoOpT .dual true 0
      [("bboxes", .plist [.plist [.pint 0, .pint 0, .pint 1, .pint 1]])]
      = .error (.keyError "image") :=
  C6_missing_image NoOpT .dual true 0
    [("bboxes", .plist [.plist [.pint 0, .pint 0, .pint 1, .pint 1]])]
    (Or.inr (Or.inr rfl)) rfl

/-- C10: `add_targets` replaces the whole alias table rather than merging:
after `add_targets m1` then `add_targets m2` exactly `m2` is in effect, and
every key routes exactly as if only `m2` had ever been registered (so an
alias of `m1` absent from `m2` routes as an ordinary key). -/
theorem C10_add_targets_replaces (t : TransformCfg)
    (m1 m2 : List (String × String)) :
    (add_targets (add_targets t m1) m2).additional_targets = m2
    ∧ ∀ (kind : TKind) (k : String),
        get_target_function (add_targets (add_targets t m1) m2) kind k
          = get_target_function (add_targets t m2) kind k :=
  ⟨rfl, fun _ _ => rfl⟩

/-- C4: `apply_to_bboxes` returns a list of the same length and order as
its input, element `i` being `apply_to_bbox` of the first four fields of
input box `i` followed by the trailing payload fields unchanged and in
order; `apply_to_keypoints` satisfies the identical property with
`apply_to_keypoint`. -/
theorem C4_bbox_keypoint_composition (f g : List Int → Params → List Int)
    (ps : Params) (bboxes keypoints : List (List Int))
    (hb : ∀ b ∈ bboxes, 4 ≤ b.length)
    (hkp : ∀ kp ∈ keypoints, 4 ≤ kp.length) :
    (apply_to_bboxes_impl f ps bboxes).length = bboxes.length
    ∧ (∀ i : Nat, (apply_to_bboxes_impl f ps bboxes).get? i
        = (bboxes.get? i).map (fun b => f (b.take 4) ps ++ b.drop 4))
    ∧ (apply_to_keypoints_impl g ps keypoints).length = keypoints.length
    ∧ (∀ i : Nat, (apply_to_keypoints_impl g ps keypoints).get? i
        = (keypoints.get? i).map (fun kp => g (kp.take 4) ps ++ kp.drop 4)) := by
  refine ⟨by simp [apply_to_bboxes_impl], ?_, by simp [apply_to_keypoints_impl], ?_⟩
  · intro i
    simp [apply_to_bboxes_impl, List.get?_map]
  · intro i
    simp [apply_to_keypoints_impl, List.get?_map]

/-- Witness for C4 at a concrete doubling primitive and 5-field boxes. -/
theorem C4_bbox_keypoint_composition_witness :
    (apply_to_bboxes_impl (fun b _ => b.map (fun n => 2 * n)) []
        [[1, 2, 3, 4, 9]]).length = 1
    ∧ (apply_to_bboxes_impl (fun b _ => b.map (fun n => 2 * n)) []
        [[1, 2, 3, 4, 9]]).get? 0 = some [2, 4, 6, 8, 9]
    ∧ (apply_to_keypoints_impl (fun b _ => b.map (fun n => n + 1)) []
        [[5, 6, 7, 8, 3]]).length = 1
    ∧ (apply_to_keypoints_impl (fun b _ => b.map (fun n => n + 1)) []
        [[5, 6, 7, 8, 3]]).get? 0 = some [6, 7, 8, 9, 3] := by
  obtain ⟨h1, h2, h3, h4⟩ :=
    C4_bbox_keypoint_composition (fun b _ => b.map (fun n => 2 * n))
      (fun b _ => b.map (fun n => n + 1)) [] [[1, 2, 3, 4, 9]] [[5, 6, 7, 8, 3]]
      (by decide) (by decide)
  exact ⟨h1, (h2 0).trans rfl, h3, (h4 0).trans rfl⟩

/-! dict lemmas for C5 -/

theorem dictGet_maskParams_interpolation (ps : Params) :
    dictGet (maskParams ps) "interpolation"
      = (dictGet ps "interpolation").map (fun _ => INTER_NEAREST) := by
  induction ps with
  | nil => rfl
  | cons kv rest ih =>
    by_cases h : kv.1 == "interpolation"
    · simp [maskParams, dictGet, List.find?, h]
    · simp only [maskParams, List.map_cons] at *
      rw [if_neg h]
      simp only [dictGet, List.find?] at *
      rw [Bool.eq_false_iff.mpr h]
      simpa [maskParams] using ih

theorem dictGet_maskParams_other (ps : Params) (k : String)
    (hk : k ≠ "interpolation") :
    dictGet (maskParams ps) k = dictGet ps k := by
  induction ps with
  | nil => rfl
  | cons kv rest ih =>
    by_cases h : kv.1 == "interpolation"
    · have h1 : kv.1 = "interpolation" := by simpa using h
      have h2 : ("interpolation" == k) = false :=
        Bool.eq_false_iff.mpr (by simpa using fun hc => hk hc.symm)
      simp only [maskParams, List.map_cons, if_pos h, dictGet, List.find?] at *
      rw [h1, h2] at *
      simpa [maskParams] using ih
    · simp only [maskParams, List.map_cons, if_neg h, dictGet, List.find?] at *
      by_cases h3 : kv.1 == k
      · rw [h3]
      · rw [Bool.eq_false_iff.mpr h3]
        simpa [maskParams] using ih

/-- C5: `apply_to_mask` equals `apply` on a parameter set identical to the
given one except that the `interpolation` value, when present, is replaced
by nearest-neighbour (`cv2.INTER_NEAREST`); `apply_to_masks` applies this
single-mask rule independently to each element in original order and
preserves the list length. -/
theorem C5_mask_nearest (f : PyVal → Params → PyVal) (m : PyVal) (ps : Params)
    (ms : List PyVal) :
    apply_to_mask_impl f m ps = f m (maskParams ps)
    ∧ dictGet (maskParams ps) "interpolation"
        = (dictGet ps "interpolation").map (fun _ => INTER_NEAREST)
    ∧ (∀ k : String, k ≠ "interpolation" →
        dictGet (maskParams ps) k = dictGet ps k)
    ∧ (apply_to_masks_impl f ms ps).length = ms.length
    ∧ ∀ i : Nat, (apply_to_masks_impl f ms ps).get? i
        = (ms.get? i).map (fun mi => apply_to_mask_impl f mi ps) := by
  refine ⟨rfl, dictGet_maskParams_interpolation ps,
    fun k hk => dictGet_maskParams_other ps k hk,
    by simp [apply_to_masks_impl], fun i => ?_⟩
  simp [apply_to_masks_impl, List.get?_map]

/-- Witness for C5 at a concrete mask, mask list and parameter set holding
an `interpolation` entry. -/
theorem C5_mask_nearest_witness :
    apply_to_mask_impl (fun m2 ps2 => .tlist [m2] [⟨"w", ps2⟩]) (.pint 3)
        [("interpolation", 7), ("rows", 2)]
      = .tlist [.pint 3] [⟨"w", [("interpolation", 0), ("rows", 2)]⟩]
    ∧ dictGet (maskParams [("interpolation", 7), ("rows", 2)]) "interpolation"
        = some 0
    ∧ dictGet (maskParams [("interpolation", 7), ("rows", 2)]) "rows" = some 2
    ∧ (apply_to_masks_impl (fun m2 ps2 => .tlist [m2] [⟨"w", ps2⟩])
        [.pint 3, .pint 4] [("interpolation", 7), ("rows", 2)]).length = 2 := by
  obtain ⟨h1, h2, h3, h4, _⟩ :=
    C5_mask_nearest (fun m2 ps2 => .tlist [m2] [⟨"w", ps2⟩]) (.pint 3)
      [("interpolation", 7), ("rows", 2)] [.pint 3, .pint 4]
  exact ⟨h1.trans rfl, h2.trans rfl, (h3 "rows" (by decide)).trans rfl, h4⟩

/-- C7: with the alias table `{img2: image}` registered, an active
invocation routes the `img2` key through the very apply-variant bound to
the canonical `image` target, and the value transformed and returned under
`img2` is the original `img2` artifact value (the function is applied to
`v`, the bundle's `img2` entry), not the value stored under `image`. -/
theorem C7_alias_routing (t : TransformCfg) (kind : TKind) (force : Bool)
    (draw : ℚ) (bundle out : Bundle) (v : PyVal) (ps : Params)
    (halias : t.additional_targets = [("img2", "image")])
    (hv : lookupBundle bundle "img2" = some v) (hvn : v ≠ .pnone)
    (hact : draw < t.p ∨ t.always_apply = true ∨ force = true)
    (hps : callParams t bundle = .ok ps)
    (hcall : call t kind force draw bundle = .ok out) :
    get_target_function t kind "img2" = get_target_function t kind "image"
    ∧ ∃ w, get_target_function t kind "image" v ps = .ok w
        ∧ lookupBundle out "img2" = some w := by
  have h1 : resolveKey t "img2" = "image" := by
    unfold resolveKey; rw [halias]; rfl
  have h2 : resolveKey t "image" = "image" := by
    unfold resolveKey; rw [halias]; rfl
  have hsame : get_target_function t kind "img2"
      = get_target_function t kind "image" := by
    unfold get_target_function
    rw [h1, h2]
  obtain ⟨w, hw1, hw2⟩ :=
    callLoop_lookup (call_active_loop hact hps hcall) hv
  rw [applyStep_ne_pnone hvn, hsame] at hw1
  exact ⟨hsame, w, hw1, hw2⟩

/-- Witness for C7: `NoOp` with alias `{img2: image}` force-applied to a
bundle holding a plain `image` and a history-carrying `img2`; the
provenance entry lands on the original `img2` value. -/
theorem C7_alias_routing_witness :
    get_target_function { NoOpT with additional_targets := [("img2", "image")] }
        .dual "img2"
      = get_target_function { NoOpT with additional_targets := [("img2", "image")] }
        .dual "image"
    ∧ ∃ w, get_target_function { NoOpT with additional_targets := [("img2", "image")] }
          .dual "image" (.tarr 1 1 [3] []) [("cols", 1), ("rows", 1)] = .ok w
        ∧ lookupBundle
            [("image", .arr 1 1 [0]),
             ("img2", .tarr 1 1 [3] [⟨"NoOp", [("cols", 1), ("rows", 1)]⟩])]
            "img2" = some w :=
  C7_alias_routing { NoOpT with additional_targets := [("img2", "image")] }
    .dual true 0
    [("image", .arr 1 1 [0]), ("img2", .tarr 1 1 [3] [])]
    [("image", .arr 1 1 [0]),
     ("img2", .tarr 1 1 [3] [⟨"NoOp", [("cols", 1), ("rows", 1)]⟩])]
    (.tarr 1 1 [3] []) [("cols", 1), ("rows", 1)]
    rfl rfl (fun hc => PyVal.noConfusion hc) (Or.inr (Or.inr rfl)) rfl rfl

/-- C8: a bundle key whose resolved canonical name is not registered in the
transform's targets mapping (e.g. `mask` under an `ImageOnlyTransform`)
routes to the no-op identity, so an active invocation returns that
artifact unchanged — the output value is the input value itself, hence no
provenance is attached to it. -/
theorem C8_unregistered_passthrough (t : TransformCfg) (kind : TKind)
    (force : Bool) (draw : ℚ) (bundle out : Bundle) (k : String) (v : PyVal)
    (ps : Params)
    (hk : targets t kind (resolveKey t k) = none)
    (hv : lookupBundle bundle k = some v)
    (hact : draw < t.p ∨ t.always_apply = true ∨ force = true)
    (hps : callParams t bundle = .ok ps)
    (hcall : call t kind force draw bundle = .ok out) :
    get_target_function t kind k = (fun x _ => Except.ok x)
    ∧ lookupBundle out k = some v := by
  have hid : get_target_function t kind k = fun x _ => Except.ok x := by
    unfold get_target_function
    rw [hk]
  obtain ⟨w, hw1, hw2⟩ :=
    callLoop_lookup (call_active_loop hact hps hcall) hv
  rw [applyStep_unregistered hk] at hw1
  obtain rfl : v = w := by
    simpa using hw1
  exact ⟨hid, hw2⟩

/-- Witness for C8: `NoOp` considered as image-only routing, force-applied
with a `mask` present: the mask comes back unchanged, history intact. -/
theorem C8_unregistered_passthrough_witness :
    get_target_function NoOpT .imageOnly "mask" = (fun x _ => Except.ok x)
    ∧ lookupBundle [("image", .arr 1 1 [0]), ("mask", .tarr 1 1 [2] [])] "mask"
        = some (.tarr 1 1 [2] []) :=
  C8_unregistered_passthrough NoOpT .imageOnly true 0
    [("image", .arr 1 1 [0]), ("mask", .tarr 1 1 [2] [])]
    [("image", .arr 1 1 [0]), ("mask", .tarr 1 1 [2] [])]
    "mask" (.tarr 1 1 [2] []) [("cols", 1), ("rows", 1)]
    rfl rfl (Or.inr (Or.inr rfl)) rfl rfl

/-! ## Provenance in the returned bundle (C1, C2) -/

theorem dt_apply_to_masks_hist_none {t : TransformCfg} {ps : Params}
    {q w : PyVal} (hw : dt_apply_to_masks t q ps = .ok w) :
    historyOf w = none := by
  unfold dt_apply_to_masks at hw
  cases hms : asPyList q with
  | none => rw [hms] at hw; cases hw
  | some ms =>
    rw [hms] at hw
    obtain rfl : PyVal.plist (apply_to_masks_impl t.applyF ms ps) = w := by
      simpa using hw
    rfl

theorem dt_apply_to_bboxes_hist_none {t : TransformCfg} {ps : Params}
    {q w : PyVal} (hw : dt_apply_to_bboxes t q ps = .ok w) :
    historyOf w = none := by
  unfold dt_apply_to_bboxes at hw
  cases hkm : keep_memory t ps q with
  | error e => rw [hkm] at hw; cases hw
  | ok q2 =>
    simp only [hkm] at hw
    cases hms : asPyList q2 with
    | none => simp only [hms] at hw; cases hw
    | some bs =>
      simp only [hms] at hw
      cases hnum : bs.mapM asNumList with
      | none => simp only [hnum] at hw; cases hw
      | some boxes =>
        simp only [hnum] at hw
        obtain rfl : PyVal.plist
            ((apply_to_bboxes_impl t.apply_to_bboxF ps boxes).map numsToPyList)
            = w := by
          simpa using hw
        rfl

theorem dt_apply_to_keypoints_hist_none {t : TransformCfg} {ps : Params}
    {q w : PyVal} (hw : dt_apply_to_keypoints t q ps = .ok w) :
    historyOf w = none := by
  unfold dt_apply_to_keypoints at hw
  cases hkm : keep_memory t ps q with
  | error e => rw [hkm] at hw; cases hw
  | ok q2 =>
    simp only [hkm] at hw
    cases hms : asPyList q2 with
    | none => simp only [hms] at hw; cases hw
    | some ks =>
      simp only [hms] at hw
      cases hnum : ks.mapM asNumList with
      | none => simp only [hnum] at hw; cases hw
      | some kps =>
        simp only [hnum] at hw
        obtain rfl : PyVal.plist
            ((apply_to_keypoints_impl t.apply_to_keypointF ps kps).map numsToPyList)
            = w := by
          simpa using hw
        rfl

/-- Counterexample to C1 as stated.  `NoOp` (a `DualTransform`) is
force-applied to a bundle whose `masks` artifact is a `TransformsList`
with an empty history — present, non-null, routed to the registered
`masks` apply-variant, and supporting attached history — yet the `masks`
artifact of the returned bundle is a freshly built plain list carrying no
history at all, where the claim demands a history of length 1.  The second
call shows the same failure for the canonical `image` target of an
`ImageOnlyTransform`, whose `targets` dict binds `image` to the bare
`apply` with no provenance recording: the history stays empty. -/
theorem C1_provenance_counterexample :
    call NoOpT .dual true 0
      [("image", .tarr 1 1 [0] []), ("masks", .tlist [.arr 1 1 [5]] [])]
      = .ok [("image", .tarr 1 1 [0] [⟨"NoOp", [("cols", 1), ("rows", 1)]⟩]),
             ("masks", .plist [.arr 1 1 [5]])]
    ∧ historyOf (.tlist [.arr 1 1 [5]] []) = some []
    ∧ historyOf (.plist [.arr 1 1 [5]]) = none
    ∧ call NoOpT .imageOnly true 0 [("image", .tarr 1 1 [0] [])]
      = .ok [("image", .tarr 1 1 [0] [])]
    ∧ historyOf (.tarr 1 1 [0] ([] : List Entry)) = some [] :=
  ⟨rfl, rfl, rfl, rfl, rfl⟩

/-- C1 (amended): for an active invocation of a `DualTransform` whose
`apply` leaf returns its argument (as `NoOp`'s does), every present
artifact resolving to the `image` or `mask` target that already carries a
history slot comes back with a history exactly one entry longer, the new
final entry recording this transform and the parameters used; artifacts
resolving to the `masks`, `bboxes` or `keypoints` targets come back as
freshly built plain lists carrying no attached history (for `bboxes` /
`keypoints` the entry is appended only to the input object in place, and
`masks` is bound without provenance recording at all). -/
theorem C1_provenance_amended (t : TransformCfg) (force : Bool) (draw : ℚ)
    (bundle out : Bundle) (k : String) (v : PyVal) (h : List Entry)
    (ps : Params)
    (hid : t.applyF = fun q _ => q)
    (hact : draw < t.p ∨ t.always_apply = true ∨ force = true)
    (hps : callParams t bundle = .ok ps)
    (hcall : call t .dual force draw bundle = .ok out)
    (hv : lookupBundle bundle k = some v) :
    ((resolveKey t k = "image" ∨ resolveKey t k = "mask") →
      historyOf v = some h →
      ∃ w, lookupBundle out k = some w
        ∧ historyOf w = some (h ++ [mkEntry t ps]))
    ∧ ((resolveKey t k = "masks" ∨ resolveKey t k = "bboxes"
          ∨ resolveKey t k = "keypoints") → v ≠ .pnone →
      ∃ w, lookupBundle out k = some w ∧ historyOf w = none) := by
  obtain ⟨w, hw1, hw2⟩ :=
    callLoop_lookup (call_active_loop hact hps hcall) hv
  constructor
  · intro hcanon hh
    have hvn : v ≠ .pnone := by
      intro hc; rw [hc] at hh; cases hh
    rw [applyStep_ne_pnone hvn] at hw1
    rcases hcanon with hc | hc
    · have hfn : get_target_function t .dual k = dt_apply t := by
        unfold get_target_function; rw [hc]; rfl
      rw [hfn] at hw1
      unfold dt_apply at hw1
      simp only [keep_memory_hist hh, hid] at hw1
      obtain rfl : setHistory v (h ++ [mkEntry t ps]) = w := by
        simpa using hw1
      exact ⟨_, hw2, historyOf_setHistory _ hh⟩
    · have hfn : get_target_function t .dual k = dt_apply_to_mask t := by
        unfold get_target_function; rw [hc]; rfl
      rw [hfn] at hw1
      unfold dt_apply_to_mask apply_to_mask_impl at hw1
      simp only [keep_memory_hist hh, hid] at hw1
      obtain rfl : setHistory v (h ++ [mkEntry t ps]) = w := by
        simpa using hw1
      exact ⟨_, hw2, historyOf_setHistory _ hh⟩
  · intro hcanon hvn
    rw [applyStep_ne_pnone hvn] at hw1
    rcases hcanon with hc | hc | hc
    · have hfn : get_target_function t .dual k = dt_apply_to_masks t := by
        unfold get_target_function; rw [hc]; rfl
      rw [hfn] at hw1
      exact ⟨w, hw2, dt_apply_to_masks_hist_none hw1⟩
    · have hfn : get_target_function t .dual k = dt_apply_to_bboxes t := by
        unfold get_target_function; rw [hc]; rfl
      rw [hfn] at hw1
      exact ⟨w, hw2, dt_apply_to_bboxes_hist_none hw1⟩
    · have hfn : get_target_function t .dual k = dt_apply_to_keypoints t := by
        unfold get_target_function; rw [hc]; rfl
      rw [hfn] at hw1
      exact ⟨w, hw2, dt_apply_to_keypoints_hist_none hw1⟩

/-- Witness for the amended C1: `NoOp` force-applied to a history-carrying
image gains exactly the entry `{NoOp, {cols: 1, rows: 1}}`. -/
theorem C1_provenance_amended_witness :
    ∃ w, lookupBundle
        [("image", .tarr 1 1 [0] [⟨"NoOp", [("cols", 1), ("rows", 1)]⟩])]
        "image" = some w
      ∧ historyOf w = some ([] ++ [mkEntry NoOpT [("cols", 1), ("rows", 1)]]) :=
  (C1_provenance_amended NoOpT true 0
    [("image", .tarr 1 1 [0] [])]
    [("image", .tarr 1 1 [0] [⟨"NoOp", [("cols", 1), ("rows", 1)]⟩])]
    "image" (.tarr 1 1 [0] []) [] [("cols", 1), ("rows", 1)]
    rfl (Or.inr (Or.inr rfl)) rfl rfl rfl).1 (Or.inl rfl) rfl

/-- C2 (code bug): `keep_memory` does wrap a plain array in a
`TransformsArray` and append the `{transform, params}` entry to the
wrapper's history — but it only rebinds its local variable, so the wrapper
is discarded when `keep_memory` returns `None`, `_apply` passes the
original unwrapped artifact on to `apply`, and the artifact handed back to
the caller carries no history at all.  The first conjunct evaluates
`keep_memory` at a plain 1x1 array: the caller-visible object (first
component) is the untouched plain array while the appended-to wrapper
(second component) is dropped; the remaining conjuncts evaluate a full
force-applied `NoOp` call at the failing input for both a plain array
image and a plain-list bboxes artifact: both come back plain, with no
history slot. -/
theorem C2_wrap_discarded_code_bug :
    keep_memory_full NoOpT [("cols", 1), ("rows", 1)] (.arr 1 1 [7])
      = .ok (.arr 1 1 [7],
             .tarr 1 1 [7] [⟨"NoOp", [("cols", 1), ("rows", 1)]⟩])
    ∧ keep_memory NoOpT [("cols", 1), ("rows", 1)] (.arr 1 1 [7])
      = .ok (.arr 1 1 [7])
    ∧ call NoOpT .dual true 0
        [("image", .arr 1 1 [7]),
         ("bboxes", .plist [.plist [.pint 1, .pint 2, .pint 3, .pint 4, .pint 9]])]
      = .ok [("image", .arr 1 1 [7]),
             ("bboxes", .plist [.plist [.pint 1, .pint 2, .pint 3, .pint 4, .pint 9]])]
    ∧ historyOf (.arr 1 1 [7]) = none
    ∧ historyOf (.plist [.plist [.pint 1, .pint 2, .pint 3, .pint 4, .pint 9]])
      = none :=
  ⟨rfl, rfl, rfl, rfl, rfl⟩

end Alb

